import Mathlib

/-!
Verification of the goLemming agent core: a shallow embedding of the action
protocol (pkg/protocol/actions.go), the action executor and file helpers
(internal/action), the LLM parsing layer (internal/llm/parser.go, prompt.go),
and the agent run loop and state machine (internal/agent), with theorems
checking the specified behavior against the embedded code.
-/

namespace GoLemming

/-- Embeds `protocol.Action` (src/pkg/protocol/actions.go): a flat record whose
`type` tag selects which fields are meaningful. Go `int` fields become `Int`;
field defaults are Go zero values. -/
structure Action where
  type : String
  x : Int := 0
  y : Int := 0
  button : String := ""
  double : Bool := false
  text : String := ""
  key : String := ""
  direction : String := ""
  amount : Int := 0
  path : String := ""
  content : String := ""
  ms : Int := 0
  summary : String := ""
  reason : String := ""
deriving DecidableEq, Repr

/-- Embeds `protocol.ValidationError` (src/pkg/protocol/actions.go). -/
structure ValidationError where
  field : String
  message : String
deriving DecidableEq, Repr

/-- The nine action kinds of the protocol (the ActionXxx constants). -/
def actionKinds : List String :=
  ["click", "type", "key", "scroll", "file_read", "file_write", "wait", "done", "failed"]

/-- Embeds `Action.Validate` (src/pkg/protocol/actions.go). The Go method
mutates the receiver in place when applying defaults and returns an error or
nil; here the updated action is returned in the `ok` case. -/
def Action.Validate (a : Action) : Except ValidationError Action :=
  if a.type = "click" then
    if a.button = "" then .ok { a with button := "left" } else .ok a
  else if a.type = "type" then
    if a.text = "" then .error ⟨"text", "text is required for type action"⟩ else .ok a
  else if a.type = "key" then
    if a.key = "" then .error ⟨"key", "key is required for key action"⟩ else .ok a
  else if a.type = "scroll" then
    if a.direction = "" then
      .error ⟨"direction", "direction is required for scroll action"⟩
    else if a.amount = 0 then .ok { a with amount := 3 } else .ok a
  else if a.type = "file_read" then
    if a.path = "" then .error ⟨"path", "path is required for file_read action"⟩ else .ok a
  else if a.type = "file_write" then
    if a.path = "" then .error ⟨"path", "path is required for file_write action"⟩ else .ok a
  else if a.type = "wait" then
    if a.ms = 0 then .ok { a with ms := 500 } else .ok a
  else if a.type = "done" then .ok a
  else if a.type = "failed" then
    if a.reason = "" then .error ⟨"reason", "reason is required for failed action"⟩ else .ok a
  else .error ⟨"type", "unknown action type: " ++ a.type⟩

/-- The JSON wire object of an Action after Go's `json.Marshal`: every field
except `type` carries the `omitempty` tag, so a Go zero value is omitted
(`none`). The byte-level JSON text encoding is standard-library code outside
this repository; the wire form is modelled at the level of present or absent
object fields. -/
structure WireAction where
  type? : Option String := none
  x? : Option Int := none
  y? : Option Int := none
  button? : Option String := none
  double? : Option Bool := none
  text? : Option String := none
  key? : Option String := none
  direction? : Option String := none
  amount? : Option Int := none
  path? : Option String := none
  content? : Option String := none
  ms? : Option Int := none
  summary? : Option String := none
  reason? : Option String := none
deriving DecidableEq, Repr

/-- The `omitempty` rule of Go's json encoder: a field equal to its zero value
is omitted from the wire object. -/
def omitempty {α : Type} [DecidableEq α] (zero v : α) : Option α :=
  if v = zero then none else some v

/-- Go `json.Marshal` applied to an Action: `type` has no omitempty tag and is
always emitted, every other field is omitted at its zero value. -/
def Action.marshal (a : Action) : WireAction where
  type? := some a.type
  x? := omitempty 0 a.x
  y? := omitempty 0 a.y
  button? := omitempty "" a.button
  double? := omitempty false a.double
  text? := omitempty "" a.text
  key? := omitempty "" a.key
  direction? := omitempty "" a.direction
  amount? := omitempty 0 a.amount
  path? := omitempty "" a.path
  content? := omitempty "" a.content
  ms? := omitempty 0 a.ms
  summary? := omitempty "" a.summary
  reason? := omitempty "" a.reason

/-- Go `json.Unmarshal` of a wire object into a zero-valued `protocol.Action`:
a field absent from the wire leaves the Go zero value in place. -/
def WireAction.unmarshal (w : WireAction) : Action where
  type := w.type?.getD ""
  x := w.x?.getD 0
  y := w.y?.getD 0
  button := w.button?.getD ""
  double := w.double?.getD false
  text := w.text?.getD ""
  key := w.key?.getD ""
  direction := w.direction?.getD ""
  amount := w.amount?.getD 0
  path := w.path?.getD ""
  content := w.content?.getD ""
  ms := w.ms?.getD 0
  summary := w.summary?.getD ""
  reason := w.reason?.getD ""

/-- Embeds the structural part of `ParseAction` (src/internal/llm/parser.go):
after `cleanResponse` strips code fences and locates the outermost braces, the
text is unmarshalled (modelled as the `WireAction` argument) and validated;
a validation failure is wrapped with the "invalid action" context. -/
def ParseAction (w : WireAction) : Except String Action :=
  match w.unmarshal.Validate with
  | .error e => .error ("invalid action: " ++ e.message)
  | .ok a => .ok a

/-- Embeds `Result` (src/internal/action/types.go). -/
structure Result where
  success : Bool
  error : String := ""
  data : String := ""
deriving DecidableEq, Repr

/-- The OS-level primitives and path library that the executor's file actions
call (`os.ReadFile`, `os.MkdirAll`, `os.WriteFile`, `filepath.Dir`), abstracted
as function parameters: they are standard-library code outside the repository.
An `error` value carries the text of `err.Error()`. -/
structure Effects where
  osReadFile : String → Except String String
  osMkdirAll : String → Except String Unit
  osWriteFile : String → String → Except String Unit
  filepathDir : String → String

/-- Unix `filepath.IsAbs`: the path begins with a slash (stated on the
character list so it computes by kernel reduction). -/
def isAbs (path : String) : Bool := path.data.head? == some '/'

/-- Embeds `ReadFile` (src/internal/action/file.go). -/
def ReadFile (eff : Effects) (path : String) (requireAbsolute : Bool) : Except String String :=
  if requireAbsolute && !(isAbs path) then
    .error ("path must be absolute: " ++ path)
  else
    match eff.osReadFile path with
    | .error e => .error ("failed to read file: " ++ e)
    | .ok content => .ok content

/-- Embeds `WriteFile` (src/internal/action/file.go). -/
def WriteFile (eff : Effects) (path content : String) (requireAbsolute : Bool) :
    Except String Unit :=
  if requireAbsolute && !(isAbs path) then
    .error ("path must be absolute: " ++ path)
  else
    match eff.osMkdirAll (eff.filepathDir path) with
    | .error e => .error ("failed to create directory: " ++ e)
    | .ok _ =>
      match eff.osWriteFile path content with
      | .error e => .error ("failed to write file: " ++ e)
      | .ok _ => .ok ()

/-- Embeds `Executor.Execute` and its executeXxx helpers
(src/unnamed/part_003, package action): dispatch on the action tag. The
pointer, keyboard and scroll effectors (`input.Move`, `input.Click`,
`input.TypeText`, `input.KeyPress`, `input.KeyCombo`, `input.ScrollDir`)
return no error in the source, so those branches always succeed; sleeps are
not observable here. `done` and `failed` reaching the executor is the
defensive case that returns success with no side effect. -/
def Executor.Execute (requireAbsolutePaths : Bool) (eff : Effects) (a : Action) : Result :=
  if a.type = "click" then { success := true }
  else if a.type = "type" then { success := true }
  else if a.type = "key" then { success := true }
  else if a.type = "scroll" then { success := true }
  else if a.type = "file_read" then
    match ReadFile eff a.path requireAbsolutePaths with
    | .error e => { success := false, error := e }
    | .ok content => { success := true, data := content }
  else if a.type = "file_write" then
    match WriteFile eff a.path a.content requireAbsolutePaths with
    | .error e => { success := false, error := e }
    | .ok _ => { success := true }
  else if a.type = "wait" then { success := true }
  else if a.type = "done" ∨ a.type = "failed" then { success := true }
  else { success := false, error := "unknown action type: " ++ a.type }

/-- Embeds `llm.ActionRecord` (src/internal/llm/prompt.go). -/
structure ActionRecord where
  type : String
  x : Int := 0
  y : Int := 0
  button : String := ""
  double : Bool := false
  text : String := ""
  key : String := ""
  direction : String := ""
  amount : Int := 0
  path : String := ""
  content : String := ""
  ms : Int := 0
  summary : String := ""
  reason : String := ""
deriving DecidableEq, Repr

/-- Embeds `llm.HistoryEntry` (src/internal/llm/prompt.go). The wall-clock
timestamp that `agent.History.Add` (src/unnamed/part_000) wraps around it comes
from `time.Now` and is external; the agent history is modelled as the list of
these entries in append order. -/
structure HistoryEntry where
  action : ActionRecord
  error : String := ""
deriving DecidableEq, Repr

/-- Embeds `ToHistoryEntry` (src/internal/action/types.go). -/
def ToHistoryEntry (a : Action) (r : Result) : HistoryEntry where
  action :=
    { type := a.type, x := a.x, y := a.y, button := a.button, double := a.double,
      text := a.text, key := a.key, direction := a.direction, amount := a.amount,
      path := a.path, content := a.content, ms := a.ms, summary := a.summary,
      reason := a.reason }
  error := if r.success then "" else r.error

/-- Embeds `agent.State` (src/unnamed/part_001, states file). -/
inductive State where
  | idle
  | running
  | completed
  | failed
  | stopped
deriving DecidableEq, Repr

/-- Embeds the `State.String` method. -/
def State.string : State → String
  | .idle => "idle"
  | .running => "running"
  | .completed => "completed"
  | .failed => "failed"
  | .stopped => "stopped"

/-- Embeds `State.IsTerminal` (src/unnamed/part_001, states file). -/
def State.IsTerminal (s : State) : Bool :=
  s = State.completed ∨ s = State.failed ∨ s = State.stopped

/-- Embeds the `agent.Agent` record (src/unnamed/part_001): the configuration
fields the loop reads, the goal, state, result and history. The client,
executor and callback pointers carry no state of their own beyond what is
modelled through the step environment. -/
structure Agent where
  requireAbsolutePaths : Bool
  maxIterations : Nat
  goal : String := ""
  state : State
  result : String := ""
  history : List HistoryEntry := []
deriving DecidableEq, Repr

/-- Embeds `agent.New` (src/unnamed/part_001): a fresh agent in state Idle with
an empty history. -/
def Agent.New (requireAbsolutePaths : Bool) (maxIterations : Nat) : Agent where
  requireAbsolutePaths := requireAbsolutePaths
  maxIterations := maxIterations
  state := .idle

/-- The behavior of the external collaborators during one loop iteration: the
context cancellation signal as sampled by the loop-top select, the result of
`capture.CaptureAndEncode`, the LLM exchange of `Client.GetAction` up to (but
not including) `ParseAction` — an API or response-extraction error, or the
unmarshalled wire object of the response text — and the OS file primitives the
executor may call. -/
structure StepInput where
  cancelled : Bool
  observation : Except String String
  decision : Except String WireAction
  effects : Effects

/-- Embeds `Client.GetAction` (src/internal/llm/client.go): the network call
and response-text extraction are external (the argument); a successful raw
response goes through `ParseAction`. -/
def GetAction (raw : Except String WireAction) : Except String Action :=
  match raw with
  | .error e => .error e
  | .ok w => ParseAction w

/-- Instrumentation of the loop, recording which collaborator calls each step
makes: the number of observation calls, the number of decision-oracle calls,
and the actions dispatched to `Executor.Execute`, in order. -/
structure Ghost where
  observes : Nat := 0
  decides : Nat := 0
  execs : List Action := []
deriving DecidableEq, Repr

def Ghost.zero : Ghost := {}

def Ghost.app (g h : Ghost) : Ghost where
  observes := g.observes + h.observes
  decides := g.decides + h.decides
  execs := g.execs ++ h.execs

/-- Embeds `Agent.step` (src/unnamed/part_001): capture, ask the LLM, handle
the two terminal sentinels, otherwise execute and record. Returns the updated
agent, the instrumentation for this step, and the Go `(bool, error)` pair as
an `Except`. The `onAction` callback is notification only and not modelled. -/
def Agent.step (inp : StepInput) (ag : Agent) : Agent × Ghost × Except String Bool :=
  match inp.observation with
  | .error e =>
    (ag, { observes := 1 }, .error ("failed to capture screenshot: " ++ e))
  | .ok _screenshot =>
    match GetAction inp.decision with
    | .error e =>
      (ag, { observes := 1, decides := 1 },
       .error ("failed to get action from LLM: " ++ e))
    | .ok nextAction =>
      if nextAction.type = "done" then
        ({ ag with state := .completed, result := nextAction.summary },
         { observes := 1, decides := 1 }, .ok true)
      else if nextAction.type = "failed" then
        ({ ag with state := .failed, result := nextAction.reason },
         { observes := 1, decides := 1 }, .ok true)
      else
        let res := Executor.Execute ag.requireAbsolutePaths inp.effects nextAction
        ({ ag with history := ag.history ++ [ToHistoryEntry nextAction res] },
         { observes := 1, decides := 1, execs := [nextAction] }, .ok false)

/-- The deferred finalizer of `Agent.Run`: a run still marked Running when Run
returns is forced to Stopped; any other state is left alone. -/
def finalize (ag : Agent) : Agent :=
  if ag.state = .running then { ag with state := .stopped } else ag

/-- The for-loop of `Agent.Run` (src/unnamed/part_001) plus its
budget-exhaustion epilogue: `i` is the loop index (used to address the step
environment) and `fuel` the remaining iterations, so a call from `Agent.Run`
has `fuel = maxIterations - i`. The deferred finalizer is applied at every
return point it guards; the stabilization sleep has no observable effect
here. -/
def Agent.runLoop (env : Nat → StepInput) (maxIterations : Nat) :
    Nat → Nat → Agent → Agent × Ghost × Option String
  | _i, 0, ag =>
    (finalize { ag with state := .failed, result := "max iterations reached" },
     Ghost.zero,
     some ("max iterations (" ++ Nat.repr maxIterations ++ ") reached"))
  | i, fuel + 1, ag =>
    if (env i).cancelled then
      (finalize { ag with state := .stopped }, Ghost.zero, some "context canceled")
    else
      match ag.step (env i) with
      | (ag2, g, .error e) => (finalize ag2, g, some e)
      | (ag2, g, .ok true) => (finalize ag2, g, none)
      | (ag2, g, .ok false) =>
        let r := Agent.runLoop env maxIterations (i + 1) fuel ag2
        (r.1, g.app r.2.1, r.2.2)

/-- Embeds `Agent.Run` (src/unnamed/part_001): reject a non-idle agent with no
state change, otherwise set the goal, enter Running, and iterate up to the
configured maximum. The returned `Option String` is the Go error (`none` for
a nil error). -/
def Agent.Run (env : Nat → StepInput) (goal : String) (ag : Agent) :
    Agent × Ghost × Option String :=
  if ag.state = .idle then
    Agent.runLoop env ag.maxIterations 0 ag.maxIterations
      { ag with goal := goal, state := .running }
  else
    (ag, Ghost.zero,
     some ("agent is not idle (current state: " ++ ag.state.string ++ ")"))

/-- Embeds `Agent.Stop` (src/unnamed/part_001): under the mutex, a Running
agent becomes Stopped and any other state is left untouched. -/
def Agent.Stop (ag : Agent) : Agent :=
  if ag.state = .running then { ag with state := .stopped } else ag

/-- The digit-accumulation loop of `itoa` (src/internal/llm/prompt.go):
`for n > 0 { digits = prepend(digit(n mod 10)); n = n / 10 }`, written with an
explicit fuel argument (any fuel of at least `n` iterations suffices, and the
wrapper below passes `n` itself) so that the definition is structurally
recursive and computes by kernel reduction. -/
def itoaDigitsAux : Nat → Nat → List Char
  | _, 0 => []
  | 0, _ + 1 => []
  | fuel + 1, n + 1 =>
    itoaDigitsAux fuel ((n + 1) / 10) ++ [Char.ofNat (48 + (n + 1) % 10)]

/-- The digit list the `itoa` loop produces for a nonnegative value. -/
def itoaDigits (n : Nat) : List Char := itoaDigitsAux n n

/-- Negation of a Go `int` (64-bit two's complement): the result wraps, so the
negation of the most negative value is itself. -/
def int64Neg (n : Int) : Int := (-n + 2 ^ 63) % 2 ^ 64 - 2 ^ 63

/-- Embeds `itoa` (src/internal/llm/prompt.go): zero maps to "0"; a negative
input is negated with Go's wrapping `int` negation before the digit loop runs,
and a minus sign is prepended at the end. -/
def itoa (n : Int) : String :=
  if n = 0 then "0"
  else
    let negative := n < 0
    let m := if negative then int64Neg n else n
    let digits := if 0 < m then itoaDigits m.toNat else []
    String.mk (if negative then '-' :: digits else digits)

/-- The standard decimal digit characters of a natural number, most significant
first, built from Mathlib's base-ten `Nat.digits`. -/
def decDigits (n : Nat) : List Char :=
  ((Nat.digits 10 n).reverse).map (fun d => Char.ofNat (48 + d))

/-- The standard decimal string representation of an integer: "0" for zero,
otherwise the base-ten digits of the absolute value with a leading minus sign
for a negative number (the claim's specification side for `itoa`). -/
def decRepr (n : Int) : String :=
  if n = 0 then "0"
  else if n < 0 then String.mk ('-' :: decDigits (-n).toNat)
  else String.mk (decDigits n.toNat)

/-- The mutex-guarded atomic regions of `agent.go` (src/unnamed/part_001) that
write the shared agent record, as operations: Run's start block, the loop-top
`ctx.Done` branch, step's two terminal writes, step's history append, the
budget-exhaustion block, the deferred finalizer, and `Stop`. Each region runs
while holding `a.mu`, so any concurrent execution of the Run goroutine with
callers of `Stop` is an interleaving of these atomic operations. -/
inductive AgentOp where
  | runStart (goal : String)
  | cancelStop
  | termDone (summary : String)
  | termFailed (reason : String)
  | record (e : HistoryEntry)
  | budgetFail
  | deferFin
  | stop
deriving DecidableEq, Repr

/-- The effect of one mutex-guarded region on the agent record, read off the
corresponding lines of src/unnamed/part_001. `termDone` and `termFailed` write
the state unconditionally; `deferFin` and `stop` test for Running first. -/
def AgentOp.apply : AgentOp → Agent → Agent
  | .runStart goal, ag =>
    if ag.state = .idle then { ag with goal := goal, state := .running } else ag
  | .cancelStop, ag => { ag with state := .stopped }
  | .termDone s, ag => { ag with state := .completed, result := s }
  | .termFailed r, ag => { ag with state := .failed, result := r }
  | .record e, ag => { ag with history := ag.history ++ [e] }
  | .budgetFail, ag => { ag with state := .failed, result := "max iterations reached" }
  | .deferFin, ag => finalize ag
  | .stop, ag => Agent.Stop ag

/-- The run of agent states produced by a sequence of atomic operations,
initial state included. -/
def statesAlong (ops : List AgentOp) (ag : Agent) : List Agent :=
  ops.scanl (fun a op => AgentOp.apply op a) ag

/-- A merge of two operation sequences preserving the order within each: the
schedules a mutex admits for two threads. -/
inductive Interleaving : List AgentOp → List AgentOp → List AgentOp → Prop where
  | nil : Interleaving [] [] []
  | left {x l r t} : Interleaving l r t → Interleaving (x :: l) r (x :: t)
  | right {x l r t} : Interleaving l r t → Interleaving l (x :: r) (x :: t)

/-- The sequence of mutex-guarded writes the Run goroutine performs when the
first decision of the environment is a validated `done` action: the start
block, the terminal write of step's done branch, and the deferred finalizer.
(The loop-top select takes its default branch and writes nothing when
cancellation is not signalled.) -/
def runnerOpsDoneFirst (goal summary : String) : List AgentOp :=
  [.runStart goal, .termDone summary, .deferFin]

/-- A step environment whose iteration succeeds without reaching a terminal
sentinel: not cancelled, observation ok, and the decision parses and validates
to a non-terminal action. -/
def NonTerminalStep (inp : StepInput) : Prop :=
  inp.cancelled = false ∧ (∃ s, inp.observation = Except.ok s) ∧
    ∃ act, GetAction inp.decision = Except.ok act ∧
      act.type ≠ "done" ∧ act.type ≠ "failed"

/-- Concrete collaborators for the closed instantiations below: the OS file
primitives always succeed. -/
def effectsOk : Effects where
  osReadFile := fun _ => .ok "data"
  osMkdirAll := fun _ => .ok ()
  osWriteFile := fun _ _ => .ok ()
  filepathDir := fun _ => "/"

/-- A wire decision proposing a click at (10, 20). -/
def wireClick : WireAction := { type? := some "click", x? := some 10, y? := some 20 }

/-- The click decision after validation applies the button default. -/
def actClick : Action := { type := "click", x := 10, y := 20, button := "left" }

/-- One successful non-terminal iteration: observation ok, oracle proposes a
click. -/
def stepClick : StepInput where
  cancelled := false
  observation := .ok "img"
  decision := .ok wireClick
  effects := effectsOk

/-- An environment that always proposes the click. -/
def envClick : Nat → StepInput := fun _ => stepClick

/-- A wire decision carrying the `done` sentinel with summary "ok". -/
def wireDone : WireAction := { type? := some "done", summary? := some "ok" }

/-- The parsed `done` action. -/
def actDone : Action := { type := "done", summary := "ok" }

/-- An iteration whose decision is the `done` sentinel. -/
def stepDone : StepInput where
  cancelled := false
  observation := .ok "img"
  decision := .ok wireDone
  effects := effectsOk

/-- An environment whose first (and every) decision is `done`. -/
def envDone : Nat → StepInput := fun _ => stepDone

/-- An iteration at which the cancellation signal is observed. -/
def stepCancel : StepInput where
  cancelled := true
  observation := .ok "img"
  decision := .ok wireClick
  effects := effectsOk

/-- An environment that signals cancellation exactly at index `k` and proposes
clicks elsewhere. -/
def envCancelAt (k : Nat) : Nat → StepInput :=
  fun i => if i = k then stepCancel else stepClick

/-! Helper lemmas. -/

theorem append_ne_empty_left (s t : String) (h : s ≠ "") : s ++ t ≠ "" := by
  intro hc
  apply h
  have hd := congrArg String.data hc
  simp only [String.data_append] at hd
  rcases List.append_eq_nil.mp hd with ⟨h1, _⟩
  exact String.ext h1

theorem ReadFile_error_ne_empty (eff : Effects) (path : String) (req : Bool) (e : String)
    (h : ReadFile eff path req = .error e) : e ≠ "" := by
  unfold ReadFile at h
  split at h
  · cases h
    exact append_ne_empty_left _ _ (by decide)
  · cases hr : eff.osReadFile path with
    | error e0 =>
      rw [hr] at h
      cases h
      exact append_ne_empty_left _ _ (by decide)
    | ok c => rw [hr] at h; cases h

theorem WriteFile_error_ne_empty (eff : Effects) (path content : String) (req : Bool)
    (e : String) (h : WriteFile eff path content req = .error e) : e ≠ "" := by
  unfold WriteFile at h
  split at h
  · cases h
    exact append_ne_empty_left _ _ (by decide)
  · cases hm : eff.osMkdirAll (eff.filepathDir path) with
    | error e0 =>
      rw [hm] at h
      cases h
      exact append_ne_empty_left _ _ (by decide)
    | ok u =>
      rw [hm] at h
      cases hw : eff.osWriteFile path content with
      | error e0 =>
        rw [hw] at h
        cases h
        exact append_ne_empty_left _ _ (by decide)
      | ok u2 => rw [hw] at h; cases h

/-- Claim C7: every outcome the Executor returns satisfies the invariant that
`success = false` implies a non-empty error description. The pointer and
keyboard effectors cannot fail in the source, and every file-level failure
(the absolute-path policy rejection included) and the unknown-type fallback
carry a non-empty message; `Execute` is a total function, so no fault
propagates past its boundary for any action. -/
theorem execute_failure_has_error (req : Bool) (eff : Effects) (a : Action)
    (h : (Executor.Execute req eff a).success = false) :
    (Executor.Execute req eff a).error ≠ "" := by
  unfold Executor.Execute at h ⊢
  split_ifs at h ⊢ <;> try simp_all
  · -- file_read
    cases hr : ReadFile eff a.path req with
    | error e =>
      simpa using ReadFile_error_ne_empty eff a.path req e hr
    | ok c => rw [hr] at h; simp at h
  · -- file_write
    cases hw : WriteFile eff a.path a.content req with
    | error e =>
      simpa using WriteFile_error_ne_empty eff a.path a.content req e hw
    | ok u => rw [hw] at h; simp at h
  · -- unknown action type
    exact append_ne_empty_left _ _ (by decide)

/-- Witness for C7: a file read rejected by the absolute-path policy yields a
failed outcome with a non-empty error. -/
theorem execute_failure_has_error_witness :
    (Executor.Execute true effectsOk { type := "file_read", path := "rel.txt" }).success =
        false ∧
      (Executor.Execute true effectsOk { type := "file_read", path := "rel.txt" }).error ≠
        "" :=
  ⟨by decide, execute_failure_has_error true effectsOk _ (by decide)⟩

/-- Claim C2: `Action.Validate` applies the documented defaults (click button,
scroll amount, wait ms), rejects each kind-required empty field with a
`ValidationError` naming that field, accepts `done` unchanged, rejects any tag
outside the nine kinds with field "type", and an action whose validation fails
never reaches the Executor: the step that received it makes no
`Executor.Execute` call and aborts with an error. -/
theorem validate_spec (a : Action) :
    (a.type = "click" → a.button = "" → a.Validate = .ok { a with button := "left" }) ∧
    (a.type = "scroll" → a.direction ≠ "" → a.amount = 0 →
      a.Validate = .ok { a with amount := 3 }) ∧
    (a.type = "wait" → a.ms = 0 → a.Validate = .ok { a with ms := 500 }) ∧
    (a.type = "type" → a.text = "" →
      a.Validate = .error ⟨"text", "text is required for type action"⟩) ∧
    (a.type = "key" → a.key = "" →
      a.Validate = .error ⟨"key", "key is required for key action"⟩) ∧
    (a.type = "scroll" → a.direction = "" →
      a.Validate = .error ⟨"direction", "direction is required for scroll action"⟩) ∧
    (a.type = "file_read" → a.path = "" →
      a.Validate = .error ⟨"path", "path is required for file_read action"⟩) ∧
    (a.type = "file_write" → a.path = "" →
      a.Validate = .error ⟨"path", "path is required for file_write action"⟩) ∧
    (a.type = "failed" → a.reason = "" →
      a.Validate = .error ⟨"reason", "reason is required for failed action"⟩) ∧
    (a.type = "done" → a.Validate = .ok a) ∧
    (a.type ∉ actionKinds →
      a.Validate = .error ⟨"type", "unknown action type: " ++ a.type⟩) ∧
    (∀ (inp : StepInput) (ag : Agent) (s : String) (w : WireAction) (e : ValidationError),
      inp.observation = .ok s → inp.decision = .ok w → w.unmarshal.Validate = .error e →
      (Agent.step inp ag).2.1.execs = [] ∧
        (Agent.step inp ag).2.2 =
          .error ("failed to get action from LLM: " ++ ("invalid action: " ++ e.message))) := by
  refine ⟨?_, ?_, ?_, ?_, ?_, ?_, ?_, ?_, ?_, ?_, ?_, ?_⟩
  · intro ht hb; simp [Action.Validate, ht, hb]
  · intro ht hd ha; simp [Action.Validate, ht, hd, ha]
  · intro ht hm; simp [Action.Validate, ht, hm]
  · intro ht he; simp [Action.Validate, ht, he]
  · intro ht he; simp [Action.Validate, ht, he]
  · intro ht he; simp [Action.Validate, ht, he]
  · intro ht he; simp [Action.Validate, ht, he]
  · intro ht he; simp [Action.Validate, ht, he]
  · intro ht he; simp [Action.Validate, ht, he]
  · intro ht; simp [Action.Validate, ht]
  · intro ht
    simp only [actionKinds, List.mem_cons, List.not_mem_nil, or_false, not_or] at ht
    obtain ⟨h1, h2, h3, h4, h5, h6, h7, h8, h9⟩ := ht
    simp [Action.Validate, h1, h2, h3, h4, h5, h6, h7, h8, h9]
  · intro inp ag s w e hobs hdec hval
    simp [Agent.step, hobs, hdec, GetAction, ParseAction, hval, String.append_assoc]

/-- Witness for C2: the click default fires on a concrete buttonless click,
and a concrete scroll with an empty direction never reaches the Executor. -/
theorem validate_spec_witness :
    ({ type := "click", x := 10, y := 20 } : Action).Validate =
        .ok { type := "click", x := 10, y := 20, button := "left" } ∧
      (Agent.step
          { cancelled := false, observation := .ok "img",
            decision := .ok { type? := some "scroll" }, effects := effectsOk }
          (Agent.New true 5)).2.1.execs = [] :=
  ⟨(validate_spec { type := "click", x := 10, y := 20 }).1 rfl rfl,
   ((validate_spec { type := "scroll" }).2.2.2.2.2.2.2.2.2.2.2
       { cancelled := false, observation := .ok "img",
         decision := .ok { type? := some "scroll" }, effects := effectsOk }
       (Agent.New true 5) "img" { type? := some "scroll" }
       ⟨"direction", "direction is required for scroll action"⟩ rfl rfl rfl).1⟩

theorem omitempty_getD {α : Type} [DecidableEq α] (zero v : α) :
    (omitempty zero v).getD zero = v := by
  unfold omitempty
  split <;> simp_all

theorem unmarshal_marshal (a : Action) : a.marshal.unmarshal = a := by
  cases a
  simp [Action.marshal, WireAction.unmarshal, omitempty_getD]

/-- Claim C8: round-trip. A well-formed action — one that normalization and
validation leave unchanged — encoded to its JSON wire form (omitempty fields
dropped at zero values) and parsed back through ParseAction yields an equal
action. Well-formedness forces the tag to be one of the nine kinds, since
Validate rejects every other tag. -/
theorem marshal_parse_roundtrip (a : Action) (h : a.Validate = .ok a) :
    ParseAction a.marshal = .ok a := by
  unfold ParseAction
  rw [unmarshal_marshal, h]

/-- Witness for C8: the round-trip evaluated on one concrete well-formed
action of each of the nine kinds. -/
theorem marshal_parse_roundtrip_witness :
    (actClick.Validate = .ok actClick ∧ ParseAction actClick.marshal = .ok actClick) ∧
      (∀ a ∈ ([{ type := "type", text := "hi" }, { type := "key", key := "enter" },
          { type := "scroll", direction := "down", amount := 3 },
          { type := "file_read", path := "/tmp/a" },
          { type := "file_write", path := "/tmp/a", content := "c" },
          { type := "wait", ms := 500 }, { type := "done", summary := "s" },
          { type := "failed", reason := "r" }] : List Action),
        ParseAction a.marshal = .ok a) :=
  ⟨⟨rfl, marshal_parse_roundtrip actClick rfl⟩, by
    intro a ha
    fin_cases ha <;> exact marshal_parse_roundtrip _ rfl⟩

/-- Claim C9: Stop changes the state only from Running (to Stopped); from any
other state it leaves the whole agent record unchanged — in particular a run
never started (Idle) is not marked Stopped. -/
theorem stop_frame (ag : Agent) :
    (ag.state = .running → Agent.Stop ag = { ag with state := .stopped }) ∧
    (ag.state ≠ .running → Agent.Stop ag = ag) := by
  constructor <;> intro h <;> simp [Agent.Stop, h]

/-- Witness for C9: Stop on a concrete running agent and on a concrete idle
agent. -/
theorem stop_frame_witness :
    Agent.Stop { Agent.New true 5 with state := .running } =
        { Agent.New true 5 with state := .stopped } ∧
      Agent.Stop (Agent.New true 5) = Agent.New true 5 :=
  ⟨(stop_frame _).1 rfl, (stop_frame _).2 (by decide)⟩

/-- Claim C5: Run invoked on an agent that is not Idle returns the not-idle
error and leaves the agent record — state, goal, result, history — exactly as
it was; no step runs (no observation, no decision, no executor call). -/
theorem run_not_idle (env : Nat → StepInput) (goal : String) (ag : Agent)
    (h : ag.state ≠ .idle) :
    Agent.Run env goal ag =
      (ag, Ghost.zero,
       some ("agent is not idle (current state: " ++ ag.state.string ++ ")")) := by
  simp [Agent.Run, h, Ghost.zero]

/-- Witness for C5: a completed agent rejects Run unchanged. -/
theorem run_not_idle_witness :
    Agent.Run envClick "goal" { Agent.New true 5 with state := .completed } =
      ({ Agent.New true 5 with state := .completed }, Ghost.zero,
       some "agent is not idle (current state: completed)") :=
  run_not_idle envClick "goal" _ (by decide)

theorem runLoop_terminal_done (env : Nat → StepInput) (N i fuel : Nat) (ag : Agent)
    (s : String) (act : Action)
    (hc : (env i).cancelled = false)
    (hobs : (env i).observation = .ok s)
    (hdec : GetAction (env i).decision = .ok act)
    (hdone : act.type = "done") :
    Agent.runLoop env N i (fuel + 1) ag =
      ({ ag with state := .completed, result := act.summary },
       { observes := 1, decides := 1, execs := [] }, none) := by
  simp [Agent.runLoop, hc, Agent.step, hobs, hdec, hdone, finalize]

theorem runLoop_terminal_failed (env : Nat → StepInput) (N i fuel : Nat) (ag : Agent)
    (s : String) (act : Action)
    (hc : (env i).cancelled = false)
    (hobs : (env i).observation = .ok s)
    (hdec : GetAction (env i).decision = .ok act)
    (hfail : act.type = "failed") :
    Agent.runLoop env N i (fuel + 1) ag =
      ({ ag with state := .failed, result := act.reason },
       { observes := 1, decides := 1, execs := [] }, none) := by
  have hnd : ¬ act.type = "done" := by rw [hfail]; decide
  simp [Agent.runLoop, hc, Agent.step, hobs, hdec, hfail, hnd, finalize]

/-- Claim C1: at any iteration of a run with budget remaining, when the oracle
returns a validated `done` (resp. `failed`) action, the loop writes Completed
with the decision's summary (resp. Failed with its reason) and returns at once
with a nil error: the returned triple records exactly one observation and one
decision, an empty executor-call list, and an agent whose history is the one
it entered the iteration with — no entry is appended for the terminal action,
the Executor is not invoked, and no further iteration runs regardless of the
remaining fuel. -/
theorem run_terminal_decision (env : Nat → StepInput) (N i fuel : Nat) (ag : Agent)
    (s : String) (act : Action)
    (_hrun : ag.state = .running)
    (hc : (env i).cancelled = false)
    (hobs : (env i).observation = .ok s)
    (hdec : GetAction (env i).decision = .ok act) :
    (act.type = "done" →
      Agent.runLoop env N i (fuel + 1) ag =
        ({ ag with state := .completed, result := act.summary },
         { observes := 1, decides := 1, execs := [] }, none)) ∧
    (act.type = "failed" →
      Agent.runLoop env N i (fuel + 1) ag =
        ({ ag with state := .failed, result := act.reason },
         { observes := 1, decides := 1, execs := [] }, none)) :=
  ⟨runLoop_terminal_done env N i fuel ag s act hc hobs hdec,
   runLoop_terminal_failed env N i fuel ag s act hc hobs hdec⟩

/-- Witness for C1: a running agent whose oracle answers `done` with summary
"ok" completes immediately. -/
theorem run_terminal_decision_witness :
    Agent.runLoop envDone 5 0 1
        { requireAbsolutePaths := true, maxIterations := 5, goal := "g",
          state := .running } =
      ({ requireAbsolutePaths := true, maxIterations := 5, goal := "g",
         state := .completed, result := "ok" },
       { observes := 1, decides := 1, execs := [] }, none) :=
  (run_terminal_decision envDone 5 0 0
      { requireAbsolutePaths := true, maxIterations := 5, goal := "g", state := .running }
      "img" { type := "done", summary := "ok" } rfl rfl rfl rfl).1 rfl

theorem Ghost.zero_app (g : Ghost) : Ghost.app ⟨0, 0, []⟩ g = g := by
  simp [Ghost.app]

theorem Ghost.app_zero (g : Ghost) : Ghost.app g Ghost.zero = g := by
  simp [Ghost.app, Ghost.zero]

theorem Ghost.app_cons (k : Nat) (act : Action) (acts : List Action) (g : Ghost) :
    Ghost.app ⟨1, 1, [act]⟩ (Ghost.app ⟨k, k, acts⟩ g) =
      Ghost.app ⟨k + 1, k + 1, act :: acts⟩ g := by
  simp [Ghost.app]
  omega

/-- Running `k` consecutive non-terminal iterations from index `i` leaves the
loop at index `i + k` with `k` more history entries, one observation, one
decision and one executor dispatch per iteration, and no other change to the
agent. -/
theorem runLoop_nonterminal_prefix (env : Nat → StepInput) (N : Nat) :
    ∀ (k i fuel : Nat) (ag : Agent),
      (∀ j, j < k → NonTerminalStep (env (i + j))) →
      ∃ (entries : List HistoryEntry) (acts : List Action),
        entries.length = k ∧ acts.length = k ∧
        Agent.runLoop env N i (k + fuel) ag =
          ((Agent.runLoop env N (i + k) fuel
              { ag with history := ag.history ++ entries }).1,
           Ghost.app ⟨k, k, acts⟩
             (Agent.runLoop env N (i + k) fuel
               { ag with history := ag.history ++ entries }).2.1,
           (Agent.runLoop env N (i + k) fuel
             { ag with history := ag.history ++ entries }).2.2) := by
  intro k
  induction k with
  | zero =>
    intro i fuel ag _h
    refine ⟨[], [], rfl, rfl, ?_⟩
    simp [Ghost.zero_app]
  | succ k ih =>
    intro i fuel ag h
    obtain ⟨hc, ⟨s, hobs⟩, act, hdec, hnd, hnf⟩ := h 0 (Nat.succ_pos k)
    rw [Nat.add_zero] at hc hobs hdec
    have hstep : k + 1 + fuel = (k + fuel) + 1 := by omega
    rw [hstep]
    have hrec :
        Agent.runLoop env N i (k + fuel + 1) ag =
          (let r := Agent.runLoop env N (i + 1) (k + fuel)
              { ag with history := ag.history ++
                  [ToHistoryEntry act
                    (Executor.Execute ag.requireAbsolutePaths (env i).effects act)] }
           (r.1, Ghost.app ⟨1, 1, [act]⟩ r.2.1, r.2.2)) := by
      simp [Agent.runLoop, hc, Agent.step, hobs, hdec, hnd, hnf, Ghost.app]
    obtain ⟨entries, acts, hl1, hl2, heq⟩ :=
      ih (i + 1) fuel
        { ag with history := ag.history ++
            [ToHistoryEntry act
              (Executor.Execute ag.requireAbsolutePaths (env i).effects act)] }
        (by
          intro j hj
          have := h (j + 1) (by omega)
          have harith : i + (j + 1) = i + 1 + j := by omega
          rwa [harith] at this)
    refine ⟨ToHistoryEntry act
        (Executor.Execute ag.requireAbsolutePaths (env i).effects act) :: entries,
      act :: acts, by simp [hl1], by simp [hl2], ?_⟩
    rw [hrec]
    simp only [heq]
    have harith2 : i + 1 + k = i + (k + 1) := by omega
    simp [harith2, Ghost.app_cons, List.append_assoc]

/-- Claim C3: with iteration budget N, an oracle that never answers `done` or
`failed` while every observation, decision and execution succeeds drives Run
through exactly N steps — N observations, N decisions, N executor dispatches,
and N history entries — after which the state is Failed with the fixed result
"max iterations reached" and Run returns an error naming the budget N. -/
theorem run_budget_exhausted (env : Nat → StepInput) (req : Bool) (N : Nat) (goal : String)
    (h : ∀ j, j < N → NonTerminalStep (env j)) :
    (Agent.Run env goal (Agent.New req N)).1.state = .failed ∧
    (Agent.Run env goal (Agent.New req N)).1.result = "max iterations reached" ∧
    (Agent.Run env goal (Agent.New req N)).1.history.length = N ∧
    (Agent.Run env goal (Agent.New req N)).2.1.observes = N ∧
    (Agent.Run env goal (Agent.New req N)).2.1.decides = N ∧
    (Agent.Run env goal (Agent.New req N)).2.1.execs.length = N ∧
    (Agent.Run env goal (Agent.New req N)).2.2 =
      some ("max iterations (" ++ Nat.repr N ++ ") reached") := by
  obtain ⟨entries, acts, hl1, hl2, heq⟩ :=
    runLoop_nonterminal_prefix env N N 0 0
      { Agent.New req N with goal := goal, state := .running }
      (by intro j hj; simpa using h j hj)
  simp only [Nat.add_zero, Nat.zero_add] at heq
  have hRun : Agent.Run env goal (Agent.New req N) =
      Agent.runLoop env N 0 N { Agent.New req N with goal := goal, state := .running } := by
    simp [Agent.Run, Agent.New]
  rw [hRun, heq]
  simp [Agent.runLoop, finalize, Agent.New, hl1, hl2, Ghost.app, Ghost.zero]

/-- Witness for C3: budget 2 with an oracle that always proposes a click ends
Failed after exactly two recorded steps. -/
theorem run_budget_exhausted_witness :
    (Agent.Run envClick "goal" (Agent.New true 2)).1.state = .failed ∧
    (Agent.Run envClick "goal" (Agent.New true 2)).1.result = "max iterations reached" ∧
    (Agent.Run envClick "goal" (Agent.New true 2)).1.history.length = 2 ∧
    (Agent.Run envClick "goal" (Agent.New true 2)).2.1.observes = 2 ∧
    (Agent.Run envClick "goal" (Agent.New true 2)).2.1.decides = 2 ∧
    (Agent.Run envClick "goal" (Agent.New true 2)).2.1.execs.length = 2 ∧
    (Agent.Run envClick "goal" (Agent.New true 2)).2.2 =
      some "max iterations (2) reached" :=
  run_budget_exhausted envClick true 2 "goal"
    (fun _j _hj => ⟨rfl, ⟨"img", rfl⟩, actClick, rfl, by decide, by decide⟩)

/-- Claim C6: when the cancellation signal is observed at the top of an
iteration — after k completed non-terminal iterations — the run transitions to
Stopped and returns at once: the iteration's observation, decision and
execution never happen (all counters and the history stay at k), and the check
sits at the top of every iteration (the statement holds for every k below the
budget). -/
theorem run_cancelled_at_loop_top (env : Nat → StepInput) (req : Bool) (N : Nat)
    (goal : String) (k : Nat) (hk : k < N)
    (h : ∀ j, j < k → NonTerminalStep (env j))
    (hc : (env k).cancelled = true) :
    (Agent.Run env goal (Agent.New req N)).1.state = .stopped ∧
    (Agent.Run env goal (Agent.New req N)).1.history.length = k ∧
    (Agent.Run env goal (Agent.New req N)).2.1.observes = k ∧
    (Agent.Run env goal (Agent.New req N)).2.1.decides = k ∧
    (Agent.Run env goal (Agent.New req N)).2.1.execs.length = k ∧
    (Agent.Run env goal (Agent.New req N)).2.2 = some "context canceled" := by
  obtain ⟨f, hf⟩ : ∃ f, N - k = f + 1 := ⟨N - k - 1, by omega⟩
  have hNk : N = k + (f + 1) := by omega
  obtain ⟨entries, acts, hl1, hl2, heq⟩ :=
    runLoop_nonterminal_prefix env N k 0 (f + 1)
      { Agent.New req N with goal := goal, state := .running }
      (by intro j hj; simpa using h j hj)
  simp only [Nat.zero_add] at heq
  have hRun : Agent.Run env goal (Agent.New req N) =
      Agent.runLoop env N 0 N { Agent.New req N with goal := goal, state := .running } := by
    simp [Agent.Run, Agent.New]
  have hfuel : Agent.runLoop env N 0 N
        { Agent.New req N with goal := goal, state := .running } =
      Agent.runLoop env N 0 (k + (f + 1))
        { Agent.New req N with goal := goal, state := .running } := by
    rw [← hNk]
  rw [hRun, hfuel, heq]
  simp [Agent.runLoop, hc, finalize, Agent.New, hl1, hl2, Ghost.app, Ghost.zero]

/-- Witness for C6: with budget 3, cancellation signalled at the top of the
second iteration stops the run after exactly one recorded step. -/
theorem run_cancelled_at_loop_top_witness :
    (Agent.Run (envCancelAt 1) "goal" (Agent.New true 3)).1.state = .stopped ∧
    (Agent.Run (envCancelAt 1) "goal" (Agent.New true 3)).1.history.length = 1 ∧
    (Agent.Run (envCancelAt 1) "goal" (Agent.New true 3)).2.1.observes = 1 ∧
    (Agent.Run (envCancelAt 1) "goal" (Agent.New true 3)).2.1.decides = 1 ∧
    (Agent.Run (envCancelAt 1) "goal" (Agent.New true 3)).2.1.execs.length = 1 ∧
    (Agent.Run (envCancelAt 1) "goal" (Agent.New true 3)).2.2 =
      some "context canceled" :=
  run_cancelled_at_loop_top (envCancelAt 1) true 3 "goal" 1 (by decide)
    (by
      intro j hj
      interval_cases j
      exact ⟨rfl, ⟨"img", rfl⟩, actClick, rfl, by decide, by decide⟩) rfl

/-- The op-sequence model agrees with the loop model: when the first decision
is a validated `done`, applying the Run goroutine's mutex-guarded writes in
program order to an idle agent produces exactly the agent `Agent.Run`
returns. -/
theorem runnerOpsDoneFirst_sound (env : Nat → StepInput) (goal : String) (ag : Agent)
    (s : String) (act : Action)
    (hidle : ag.state = .idle) (hN : 0 < ag.maxIterations)
    (hc : (env 0).cancelled = false)
    (hobs : (env 0).observation = .ok s)
    (hdec : GetAction (env 0).decision = .ok act)
    (hdone : act.type = "done") :
    List.foldl (fun a op => AgentOp.apply op a) ag (runnerOpsDoneFirst goal act.summary) =
      (Agent.Run env goal ag).1 := by
  obtain ⟨f, hf⟩ : ∃ f, ag.maxIterations = f + 1 := ⟨ag.maxIterations - 1, by omega⟩
  have hR : Agent.Run env goal ag =
      Agent.runLoop env ag.maxIterations 0 (f + 1) { ag with goal := goal, state := .running } := by
    simp [Agent.Run, hidle, hf]
  rw [hR, runLoop_terminal_done env ag.maxIterations 0 f _ s act hc hobs hdec hdone]
  simp [runnerOpsDoneFirst, AgentOp.apply, hidle, finalize]

/-- Claim C4 fails on the code: terminal states are not irreversible under the
agent's own operations. `Agent.Stop` and the deferred finalizer guard their
write with a Running check, but the terminal write in `Agent.step` does not,
so the mutex admits the schedule below — Run starts, the oracle answers
`done`, `Stop` acquires `a.mu` first and moves Running to Stopped, then the
step's terminal write moves the already-terminal Stopped to Completed. The
schedule is an interleaving of the Run goroutine's writes (shown sound against
`Agent.Run` for this environment) with one `Stop` call, and along it the state
takes two distinct terminal values in succession. -/
theorem stop_race_overwrites_terminal_state :
    Interleaving (runnerOpsDoneFirst "g" "ok") [AgentOp.stop]
        [AgentOp.runStart "g", AgentOp.stop, AgentOp.termDone "ok", AgentOp.deferFin] ∧
      List.foldl (fun a op => AgentOp.apply op a) (Agent.New true 5)
          (runnerOpsDoneFirst "g" "ok") = (Agent.Run envDone "g" (Agent.New true 5)).1 ∧
      (statesAlong [AgentOp.runStart "g", AgentOp.stop, AgentOp.termDone "ok",
            AgentOp.deferFin] (Agent.New true 5)).map (fun a => a.state) =
        [.idle, .running, .stopped, .completed, .completed] ∧
      State.IsTerminal .stopped = true ∧ State.IsTerminal .completed = true ∧
      State.stopped ≠ State.completed :=
  ⟨.left (.right (.left (.left .nil))),
   runnerOpsDoneFirst_sound envDone "g" (Agent.New true 5) "img"
     { type := "done", summary := "ok" } rfl (by norm_num [Agent.New]) rfl rfl rfl rfl,
   by decide, by decide, by decide, by decide⟩

theorem itoaDigitsAux_eq_decDigits (fuel : Nat) :
    ∀ n, n ≤ fuel → itoaDigitsAux fuel n = decDigits n := by
  induction fuel with
  | zero =>
    intro n hn
    interval_cases n
    simp [itoaDigitsAux, decDigits]
  | succ fuel ih =>
    intro n hn
    match n with
    | 0 => simp [itoaDigitsAux, decDigits]
    | m + 1 =>
      have hdiv : (m + 1) / 10 ≤ fuel := by
        have := Nat.div_lt_self (Nat.succ_pos m) (by norm_num : 1 < 10)
        omega
      simp only [itoaDigitsAux]
      rw [ih _ hdiv]
      unfold decDigits
      rw [Nat.digits_def' (by norm_num : 1 < 10) (Nat.succ_pos m)]
      simp

theorem itoaDigits_eq_decDigits (n : Nat) : itoaDigits n = decDigits n :=
  itoaDigitsAux_eq_decDigits n n le_rfl

/-- Amended claim C10: for every value of Go's 64-bit `int` other than the
most negative one, `itoa` returns the standard decimal string representation;
at the most negative value the wrapping negation leaves the argument negative,
the digit loop runs zero times, and `itoa` returns just "-" (see the
counterexample theorem). -/
theorem itoa_decimal (n : Int) (h1 : -(2 ^ 63) < n) (h2 : n < 2 ^ 63) :
    itoa n = decRepr n := by
  have e1 : (2 : Int) ^ 63 = 9223372036854775808 := by norm_num
  rw [e1] at h1 h2
  by_cases h0 : n = 0
  · simp [itoa, decRepr, h0]
  · by_cases hneg : n < 0
    · have hwrap : int64Neg n = -n := by
        unfold int64Neg
        have e2 : (2 : Int) ^ 64 = 18446744073709551616 := by norm_num
        rw [e1, e2]
        rw [Int.emod_eq_of_lt (by omega) (by omega)]
        omega
      have hpos : 0 < -n := by omega
      simp only [itoa, decRepr, h0, hneg, if_false, if_true, hwrap, hpos, if_pos]
      rw [itoaDigits_eq_decDigits]
    · have hpos : 0 < n := by omega
      simp only [itoa, decRepr, h0, hneg, if_false, hpos, if_pos, if_true]
      rw [itoaDigits_eq_decDigits]

/-- Counterexample for C10: at the most negative 64-bit integer the wrapping
negation is a no-op, so the digit loop never runs and `itoa` returns "-"
instead of the standard decimal representation. -/
theorem itoa_minInt64_wrong :
    itoa (-(2 ^ 63)) = "-" ∧ decRepr (-(2 ^ 63)) = "-9223372036854775808" ∧
      itoa (-(2 ^ 63)) ≠ decRepr (-(2 ^ 63)) := by
  have h1 : itoa (-(2 ^ 63)) = "-" := by decide
  have h2 : decRepr (-(2 ^ 63)) = "-9223372036854775808" := by
    have hd : decRepr (-(2 ^ 63)) = String.mk ('-' :: decDigits 9223372036854775808) := by
      norm_num [decRepr]
      rfl
    rw [hd, ← itoaDigits_eq_decDigits]
    decide
  refine ⟨h1, h2, ?_⟩
  rw [h1, h2]
  decide

/-- Witness for the amended C10: itoa agrees with the decimal representation
at a sample negative value. -/
theorem itoa_decimal_witness :
    itoa (-45) = decRepr (-45) ∧ decRepr (-45) = "-45" :=
  ⟨itoa_decimal (-45) (by norm_num) (by norm_num), by
    rw [show decRepr (-45) = String.mk ('-' :: decDigits 45) by norm_num [decRepr]; rfl,
      ← itoaDigits_eq_decDigits]
    decide⟩

end GoLemming

